import Mathlib

/-!
Verification of MonkeyTest (`monkeytest.py`), a disk read/write speed
benchmark.  The definitions below are a shallow embedding of the script:
pure helpers become Lean functions, the timed I/O loops become functions
over an abstract clock / read oracle, and fallible steps return `Except`.
Python floats are modelled as exact rationals and Python's `round` as
round-half-to-even.
-/

namespace MonkeyTest

/-! ## Unit parser: `str_to_bytes`

Python source:
```
def str_to_bytes(size):
    units = \x7b'B': 1, 'KB': 2**10, 'MB': 2**20, 'GB': 2**30, 'TB': 2**40\x7d
    try:
        number, unit = re.match(r'^(\d+(?:\.\d+)?)\s?([KMGT]?B)?',
                                size.upper()).groups()
        return int(float(number) * units.get(unit, 'B'))
    except AttributeError:
        return None
```
The regex is matched at the start of the string only; trailing characters
are ignored.  When the unit group is absent, `units.get(unit, 'B')`
returns the *string* `'B'`, and `float(number) * 'B'` raises an uncaught
`TypeError`; when the regex fails to match, `.groups()` raises
`AttributeError`, which is caught, returning `None`.
-/

/-- Outcome of `str_to_bytes`: a byte count, `None`, or an uncaught
`TypeError` escaping the function. -/
inductive ParseOutcome where
  | ok (n : ℤ)
  | noneResult
  | typeError
deriving DecidableEq, Repr

/-- Numeric value of a digit character. -/
def digitVal (c : Char) : ℕ := c.toNat - '0'.toNat

/-- Value of a digit string, most significant first. -/
def digitsToNat (ds : List Char) : ℕ :=
  ds.foldl (fun n c => 10 * n + digitVal c) 0

/-- Match `\d+(?:\.\d+)?` at the head of the character list, returning the
number as an exact rational together with the unconsumed suffix; `none`
when there is no leading digit (the whole regex then fails to match). -/
def matchNumber (s : List Char) : Option (ℚ × List Char) :=
  let p := s.span (fun c => c.isDigit)
  if p.1 = [] then none
  else
    match p.2 with
    | '.' :: rest2 =>
        let q := rest2.span (fun c => c.isDigit)
        if q.1 = [] then some ((digitsToNat p.1 : ℚ), p.2)
        else some ((digitsToNat p.1 : ℚ) + (digitsToNat q.1 : ℚ) / 10 ^ q.1.length, q.2)
    | _ => some ((digitsToNat p.1 : ℚ), p.2)

/-- Match the optional group `([KMGT]?B)?` at the head of the list,
returning the matched unit when the group participates. -/
def matchUnit (s : List Char) : Option (List Char) :=
  match s with
  | c :: 'B' :: _ =>
      if c = 'K' ∨ c = 'M' ∨ c = 'G' ∨ c = 'T' then some [c, 'B']
      else if c = 'B' then some ['B'] else none
  | 'B' :: _ => some ['B']
  | _ => none

/-- Byte multiplier of a matched unit string. -/
def unitsVal (u : List Char) : ℚ :=
  if u = ['K', 'B'] then 2 ^ 10
  else if u = ['M', 'B'] then 2 ^ 20
  else if u = ['G', 'B'] then 2 ^ 30
  else if u = ['T', 'B'] then 2 ^ 40
  else 1

/-- Shallow embedding of `str_to_bytes`. -/
def str_to_bytes (size : String) : ParseOutcome :=
  let u := size.data.map Char.toUpper
  match matchNumber u with
  | none => ParseOutcome.noneResult
  | some (q, rest) =>
      let rest1 := match rest with
        | c :: r => if c.isWhitespace then r else c :: r
        | [] => []
      match matchUnit rest1 with
      | some un => ParseOutcome.ok (q * unitsVal un).floor
      | none => ParseOutcome.typeError

/-! ## Benchmark configuration: `Benchmark.__init__`

```
self.write_block, self.read_block = map(lambda x: min(x, self.write),
                                        (write_block, read_block))
wr_blocks, rd_blocks = map(lambda x: int(self.write / x),
                           (self.write_block, self.read_block))
```
-/

/-- Effective configuration derived in `Benchmark.__init__`: clamped block
sizes and the block counts handed to the write and read passes. -/
structure BenchConfig where
  write : ℕ
  write_block : ℕ
  read_block : ℕ
  wr_blocks : ℕ
  rd_blocks : ℕ
deriving DecidableEq, Repr

/-- Shallow embedding of the derivation in `Benchmark.__init__` (`int` of
an exact nonnegative quotient is floor division). -/
def mkBenchmark (write write_block read_block : ℕ) : BenchConfig :=
  let wb := min write_block write
  let rb := min read_block write
  ⟨write, wb, rb, write / wb, write / rb⟩

/-! ## Write pass: `Benchmark.write_test`

The timed loop runs exactly `blocks_count` iterations and appends
`time() - start` each time.  The monotonic clock is modelled as a stream
`c : ℕ → ℚ` of readings; iteration `i` reads the clock at positions
`2*i` (start) and `2*i+1` (end).
-/

/-- Timing list returned by `write_test` under clock stream `c`. -/
def write_test_took (c : ℕ → ℚ) (blocks_count : ℕ) : List ℚ :=
  (List.range blocks_count).map (fun i => c (2 * i + 1) - c (2 * i))

/-! ## Read pass: `Benchmark.read_test`

```
offsets = list(range(0, blocks_count * block_size, block_size))
if randomize:
    shuffle(offsets)
self.force_cache_drop()
took = []
for i, offset in enumerate(offsets, 1):
    start = time()
    buff = os.pread(f, block_size, offset)
    t = time() - start
    if not buff:
        break  # if EOF reached
    took.append(t)
```
`readF o` is the number of bytes `os.pread` returns at offset `o` (zero
exactly when `buff` is falsy), and `dur i` the elapsed time of the `i`-th
read call.
-/

/-- The unshuffled offset list `range(0, blocks_count*block_size, block_size)`. -/
def read_offsets (block_size blocks_count : ℕ) : List ℕ :=
  (List.range blocks_count).map (fun k => k * block_size)

/-- Timed read loop of `read_test`: append one sample per successful read,
break out of the whole loop on the first zero-byte read, discarding that
sample. -/
def read_took (readF : ℕ → ℕ) (dur : ℕ → ℚ) : List ℕ → ℕ → List ℚ
  | [], _ => []
  | o :: rest, i =>
      if readF o = 0 then []
      else dur i :: read_took readF dur rest (i + 1)

/-- Errors that can escape the benchmark. -/
inductive RunError where
  | cacheDropFailed
  | ioFailure
  | divByZero
  | emptySeq
deriving DecidableEq, Repr

/-- Shallow embedding of `Benchmark.force_cache_drop`: opening
`/proc/sys/vm/drop_caches` for writing succeeds only in a privileged,
supported environment; otherwise the exception escapes. -/
def force_cache_drop (canDropCaches : Bool) : Except RunError Unit :=
  if canDropCaches then Except.ok () else Except.error RunError.cacheDropFailed

/-- Shallow embedding of `read_test` around the timed loop: the
`force_cache_drop` call sits before the loop and is not guarded, so its
failure propagates out of the pass. -/
def read_test_run (canDropCaches : Bool) (readF : ℕ → ℕ) (dur : ℕ → ℚ)
    (offsets : List ℕ) : Except RunError (List ℚ) :=
  match force_cache_drop canDropCaches with
  | Except.error e => Except.error e
  | Except.ok _ => Except.ok (read_took readF dur offsets 1)

/-! ## File contents written by the write pass

`write_test` opens the target with `os.O_CREAT | os.O_WRONLY | os.O_SYNC`
(no `O_TRUNC`), so a pre-existing file keeps its contents; each iteration
writes `bytearray(block_size)` (zero bytes) at the current position, which
advances sequentially.  File contents are a list of byte values.
-/

/-- Overwrite `buf` into `file` at position `pos`, zero-filling any gap
and extending the file as needed (POSIX write semantics). -/
def writeAt (file : List ℕ) (pos : ℕ) (buf : List ℕ) : List ℕ :=
  file.take pos ++ List.replicate (pos - file.length) 0 ++ buf
    ++ file.drop (pos + buf.length)

/-- Contents of the target file after `write_test` has written `n` zero
blocks of `bs` bytes sequentially over initial contents `init`. -/
def write_test_file (init : List ℕ) (bs : ℕ) : ℕ → List ℕ
  | 0 => init
  | n + 1 => writeAt (write_test_file init bs n) (bs * n) (List.replicate bs 0)

/-! ## Aggregation: `Benchmark.results` and `convert_results`

```
@staticmethod
def convert_results(result, ndigits=2):
    return round(result / 1024 ** 2, ndigits)
```
Python `round` rounds half to even; floats are modelled as exact
rationals.  In the `results` dict, `sum([]) == 0` makes the division
raise `ZeroDivisionError` before `max`/`min` can raise on an empty list.
-/

/-- Round a rational to the nearest integer, ties to even (Python `round`). -/
def roundHalfEven (q : ℚ) : ℤ :=
  if q - ⌊q⌋ < 1 / 2 then ⌊q⌋
  else if 1 / 2 < q - ⌊q⌋ then ⌊q⌋ + 1
  else if ⌊q⌋ % 2 = 0 then ⌊q⌋ else ⌊q⌋ + 1

/-- Python `round(q, nd)`. -/
def pyRound (q : ℚ) (nd : ℕ) : ℚ :=
  (roundHalfEven (q * 10 ^ nd) : ℚ) / 10 ^ nd

/-- Python `round(result / 1024 ** 2, ndigits)`. -/
def convert_results (result : ℚ) (ndigits : ℕ) : ℚ :=
  pyRound (result / 1024 ^ 2) ndigits

/-- Python `max` over a nonempty list (`none` on empty). -/
def listMax : List ℚ → Option ℚ
  | [] => none
  | a :: l => some (l.foldl max a)

/-- Python `min` over a nonempty list (`none` on empty). -/
def listMin : List ℚ → Option ℚ
  | [] => none
  | a :: l => some (l.foldl min a)

/-- The eleven numeric fields of the `Benchmark.results` dict. -/
structure ResultsSummary where
  written_mb : ℚ
  write_time : ℚ
  write_speed : ℚ
  write_speed_min : ℚ
  write_speed_max : ℚ
  read_blocks : ℕ
  block_size : ℕ
  read_time : ℚ
  read_speed : ℚ
  read_speed_max : ℚ
  read_speed_min : ℚ
deriving DecidableEq, Repr

/-- Shallow embedding of the `Benchmark.results` property, with the dict
entries evaluated in source order and each failing operation raising in
that order: division by a zero sum, division by a zero `max`/`min`, and
`max`/`min` of an empty list (unreachable, as a zero sum raises first). -/
def results (write write_block read_block : ℕ)
    (write_results read_results : List ℚ) : Except RunError ResultsSummary :=
  if write_results.sum = 0 then Except.error RunError.divByZero
  else match listMax write_results, listMin write_results with
  | some wmx, some wmn =>
      if wmx = 0 then Except.error RunError.divByZero
      else if wmn = 0 then Except.error RunError.divByZero
      else if read_results.sum = 0 then Except.error RunError.divByZero
      else match listMin read_results, listMax read_results with
      | some rmn, some rmx =>
          if rmn = 0 then Except.error RunError.divByZero
          else if rmx = 0 then Except.error RunError.divByZero
          else Except.ok
            ⟨convert_results (write : ℚ) 0,
             pyRound write_results.sum 4,
             convert_results ((write : ℚ) / write_results.sum) 2,
             convert_results ((write_block : ℚ) / wmx) 2,
             convert_results ((write_block : ℚ) / wmn) 2,
             read_results.length,
             read_block,
             pyRound read_results.sum 4,
             convert_results ((write : ℚ) / read_results.sum) 2,
             convert_results ((read_block : ℚ) / rmn) 2,
             convert_results ((read_block : ℚ) / rmx) 2⟩
      | _, _ => Except.error RunError.emptySeq
  | _, _ => Except.error RunError.emptySeq

/-! ## Orchestration: `main`

```
args = get_args()
benchmark = Benchmark(...)
if args.json is not None:
    benchmark.get_json_result(args.json)
else:
    benchmark.print_result()
os.remove(args.file)
```
Straight-line code with no `try`/`finally`: any exception raised while the
benchmark runs or while reporting propagates and `os.remove` never
executes.  The abstract outcomes of the two effectful phases are inputs;
the second component records whether `os.remove(args.file)` ran.
-/

/-- Shallow embedding of the tail of `main`: the run's outcome paired with
whether the target file was removed. -/
def mainModel (bench : Except RunError Unit) (report : Except RunError Unit) :
    Except RunError Unit × Bool :=
  match bench with
  | Except.error e => (Except.error e, false)
  | Except.ok _ =>
      match report with
      | Except.error e => (Except.error e, false)
      | Except.ok _ => (Except.ok (), true)

/-! ## Theorems -/

/-- The read offsets are pairwise distinct when the block size is positive. -/
theorem read_offsets_nodup (bs n : ℕ) (hbs : 0 < bs) : (read_offsets bs n).Nodup := by
  refine List.Nodup.map ?_ (List.nodup_range n)
  intro a b hab
  exact Nat.eq_of_mul_eq_mul_right hbs hab

/-- Claim C1: for positive `block_size` and any `blocks_count`, every list
obtained by permuting the generated offset list (as `random.shuffle` does)
contains each offset `k * block_size` for `k < blocks_count` exactly once,
and nothing else. -/
theorem read_offsets_perm_exact (bs n : ℕ) (hbs : 0 < bs) (l : List ℕ)
    (hperm : l.Perm (read_offsets bs n)) :
    (∀ k, k < n → l.count (k * bs) = 1) ∧ ∀ x ∈ l, ∃ k, k < n ∧ x = k * bs := by
  constructor
  · intro k hk
    have hmem : k * bs ∈ read_offsets bs n := by
      simp only [read_offsets, List.mem_map, List.mem_range]
      exact ⟨k, hk, rfl⟩
    rw [hperm.count_eq]
    exact List.count_eq_one_of_mem (read_offsets_nodup bs n hbs) hmem
  · intro x hx
    have hx' : x ∈ read_offsets bs n := hperm.mem_iff.mp hx
    simp only [read_offsets, List.mem_map, List.mem_range] at hx'
    obtain ⟨k, hk, rfl⟩ := hx'
    exact ⟨k, hk, rfl⟩

/-- Witness for C1 at `block_size = 512`, `blocks_count = 4` and the
shuffled order `[1024, 0, 1536, 512]`. -/
theorem read_offsets_perm_exact_witness :
    (∀ k, k < 4 → ([1024, 0, 1536, 512] : List ℕ).count (k * 512) = 1) ∧
      ∀ x ∈ ([1024, 0, 1536, 512] : List ℕ), ∃ k, k < 4 ∧ x = k * 512 :=
  read_offsets_perm_exact 512 4 (by decide) [1024, 0, 1536, 512] (by decide)

/-- Claim C2: a write pass over `N` blocks returns exactly `N` timing
samples, and under a strictly monotone clock every sample is positive. -/
theorem write_test_length_pos (c : ℕ → ℚ) (N : ℕ)
    (hc : ∀ k, c k < c (k + 1)) :
    (write_test_took c N).length = N ∧ ∀ t ∈ write_test_took c N, 0 < t := by
  constructor
  · simp [write_test_took]
  · intro t ht
    simp only [write_test_took, List.mem_map, List.mem_range] at ht
    obtain ⟨i, _, rfl⟩ := ht
    have := hc (2 * i)
    linarith

/-- Witness for C2 with the clock `c n = n` and `N = 2`. -/
theorem write_test_length_pos_witness :
    (write_test_took (fun n => (n : ℚ)) 2).length = 2 ∧
      ∀ t ∈ write_test_took (fun n => (n : ℚ)) 2, 0 < t :=
  write_test_length_pos (fun n => (n : ℚ)) 2
    (fun k => by show (k : ℚ) < ((k + 1 : ℕ) : ℚ); exact_mod_cast Nat.lt_succ_self k)

/-- The read loop's samples are exactly one per offset of the longest
prefix on which the read returns data. -/
theorem read_took_eq_map_range' (readF : ℕ → ℕ) (dur : ℕ → ℚ) :
    ∀ (offsets : List ℕ) (i : ℕ),
      read_took readF dur offsets i =
        (List.range' i (offsets.takeWhile (fun o => !(readF o == 0))).length).map dur
  | [], i => by simp [read_took]
  | o :: rest, i => by
      by_cases h : readF o = 0
      · simp [read_took, h, List.takeWhile_cons]
      · simp [read_took, h, List.takeWhile_cons, List.range'_succ,
          read_took_eq_map_range' readF dur rest (i + 1)]

/-- The `takeWhile` prefix of a list is never longer than the list. -/
theorem length_takeWhile_le_self {α : Type} (p : α → Bool) :
    ∀ l : List α, (l.takeWhile p).length ≤ l.length
  | [] => le_refl 0
  | a :: l => by
      rw [List.takeWhile_cons]
      by_cases h : p a = true
      · simpa [h] using length_takeWhile_le_self p l
      · simp [h]

/-- Claim C3: the read pass breaks out of the whole loop at the first
zero-byte read, discarding that sample: the returned sequence is exactly
one sample per offset before the first end-of-file read (the `takeWhile`
prefix), and its length never exceeds the number of offsets. -/
theorem read_test_stops_at_first_eof (readF : ℕ → ℕ) (dur : ℕ → ℚ)
    (offsets : List ℕ) (i : ℕ) :
    read_took readF dur offsets i =
      (List.range' i (offsets.takeWhile (fun o => !(readF o == 0))).length).map dur ∧
    (read_took readF dur offsets i).length ≤ offsets.length := by
  refine ⟨read_took_eq_map_range' readF dur offsets i, ?_⟩
  rw [read_took_eq_map_range' readF dur offsets i]
  simp only [List.length_map, List.length_range']
  exact length_takeWhile_le_self _ offsets

/-- Claim C4: evaluation of the unit parser.  `"128MB"`, `"512B"` and
`"1.5GB"` parse as specified and `"abc"` fails, but the unitless `"1000"`
does not return `1000`: `units.get(unit, 'B')` yields the string `'B'` as
the multiplier, so `float('1000') * 'B'` raises an uncaught `TypeError`. -/
theorem str_to_bytes_eval :
    str_to_bytes "128MB" = ParseOutcome.ok 134217728 ∧
    str_to_bytes "512B" = ParseOutcome.ok 512 ∧
    str_to_bytes "1.5GB" = ParseOutcome.ok 1610612736 ∧
    str_to_bytes "abc" = ParseOutcome.noneResult ∧
    str_to_bytes "1000" = ParseOutcome.typeError := by
  refine ⟨?_, ?_, ?_, ?_, ?_⟩ <;> with_unfolding_all rfl

/-- Claim C5: a write block size larger than the total payload size is
clamped, yielding exactly the configuration obtained from a write block
size equal to the payload, and both effective block sizes are at most the
payload size. -/
theorem block_size_clamp_equiv (S wb rb : ℕ) (_hS : 0 < S) (hwb : S < wb) :
    mkBenchmark S wb rb = mkBenchmark S S rb ∧
    (mkBenchmark S wb rb).write_block ≤ S ∧ (mkBenchmark S wb rb).read_block ≤ S := by
  refine ⟨?_, ?_, ?_⟩
  · simp [mkBenchmark, min_eq_right hwb.le, min_self]
  · simp [mkBenchmark]
  · simp [mkBenchmark]

/-- Witness for C5 at `size = 1MB`, `write_block = 2MB`, `read_block = 512B`. -/
theorem block_size_clamp_equiv_witness :
    mkBenchmark 1048576 2097152 512 = mkBenchmark 1048576 1048576 512 ∧
    (mkBenchmark 1048576 2097152 512).write_block ≤ 1048576 ∧
    (mkBenchmark 1048576 2097152 512).read_block ≤ 1048576 :=
  block_size_clamp_equiv 1048576 2097152 512 (by decide) (by decide)

/-- Counterexample to claim C7: writing one 1-byte block over the prior
contents `[1, 2, 3]` leaves `[0, 2, 3]`: the byte values beyond the
written payload survive the write pass, because the file is opened with
`O_CREAT | O_WRONLY | O_SYNC` and no `O_TRUNC`. -/
theorem write_test_no_truncate_cex :
    write_test_file [1, 2, 3] 1 1 = [0, 2, 3] ∧
      (write_test_file [1, 2, 3] 1 1).drop 1 = ([1, 2, 3] : List ℕ).drop 1 ∧
      (write_test_file [1, 2, 3] 1 1).drop 1 ≠ [] := by
  refine ⟨rfl, rfl, ?_⟩
  decide

/-- The write pass leaves the payload of zero blocks followed by the
prior file's bytes beyond the payload. -/
theorem write_test_file_eq_append (init : List ℕ) (bs : ℕ) :
    ∀ n : ℕ, bs * n ≤ init.length →
      write_test_file init bs n = List.replicate (bs * n) 0 ++ init.drop (bs * n)
  | 0, _ => by simp [write_test_file]
  | n + 1, h => by
      have hn : bs * n ≤ init.length :=
        le_trans (Nat.mul_le_mul_left bs (Nat.le_succ n)) h
      have ih := write_test_file_eq_append init bs n hn
      rw [write_test_file, writeAt, ih]
      have hlen : (List.replicate (bs * n) (0 : ℕ) ++ init.drop (bs * n)).length =
          init.length := by
        simp [Nat.add_sub_cancel' hn]
      rw [hlen, Nat.sub_eq_zero_of_le hn]
      rw [List.take_left' (by simp), List.replicate_zero]
      simp only [List.length_replicate]
      have hdrop : (List.replicate (bs * n) (0 : ℕ) ++ init.drop (bs * n)).drop
          (bs * n + bs) = init.drop (bs * (n + 1)) := by
        rw [show bs * n + bs = (List.replicate (bs * n) (0 : ℕ)).length + bs by simp,
          List.drop_append, List.drop_drop]
        ring_nf
      rw [hdrop, Nat.mul_succ, List.replicate_add]
      simp

/-- Amended C7: the write pass does not truncate: whenever the prior file
is at least as long as the written payload, the result is the payload of
zero blocks followed by the surviving prior bytes beyond the payload. -/
theorem write_test_file_preserves_tail (init : List ℕ) (bs n : ℕ)
    (h : bs * n ≤ init.length) :
    write_test_file init bs n = List.replicate (bs * n) 0 ++ init.drop (bs * n) :=
  write_test_file_eq_append init bs n h

/-- Witness for amended C7 at prior contents `[1, 2, 3]`, block size 1,
one block. -/
theorem write_test_file_preserves_tail_witness :
    write_test_file [1, 2, 3] 1 1 =
      List.replicate (1 * 1) 0 ++ ([1, 2, 3] : List ℕ).drop (1 * 1) :=
  write_test_file_preserves_tail [1, 2, 3] 1 1 (by decide)

/-- Counterexample to claim C8: in an environment where the cache-drop
write is unsupported or unprivileged, the read pass does not continue in
degraded mode — it returns the propagated error and no timing sequence. -/
theorem read_test_cache_drop_cex :
    read_test_run false (fun _ => 512) (fun _ => 1) [0, 512] =
      Except.error RunError.cacheDropFailed := rfl

/-- Amended C8: a cache-drop failure aborts the read pass: the unguarded
`force_cache_drop()` call raises before the timed loop, the exception
propagates out of `read_test`, and no timing sequence is produced — the
pass always returns the error, never a list of samples. -/
theorem read_test_cache_drop_aborts (readF : ℕ → ℕ) (dur : ℕ → ℚ)
    (offsets : List ℕ) :
    read_test_run false readF dur offsets = Except.error RunError.cacheDropFailed :=
  rfl

/-- Counterexample to claim C9: when the benchmark itself raises (for
example an I/O failure during a pass), `main` never reaches
`os.remove(args.file)` and the target file is not deleted. -/
theorem main_cleanup_cex :
    mainModel (Except.error RunError.ioFailure) (Except.ok ()) =
      (Except.error RunError.ioFailure, false) := rfl

/-- Amended C9: `os.remove` is the last statement of a straight-line
`main` with no `try`/`finally`, so the target file is removed exactly when
both the benchmark run and the reporting step succeed; on any error exit
path the file survives. -/
theorem main_removes_iff_success (bench report : Except RunError Unit) :
    (mainModel bench report).2 = true ↔
      bench = Except.ok () ∧ report = Except.ok () := by
  cases bench with
  | error e => simp [mainModel]
  | ok u => cases report with
    | error e => simp [mainModel]
    | ok v => simp [mainModel]

/-- A left fold of `max` over positives starting from a positive is positive. -/
theorem foldl_max_pos (l : List ℚ) : ∀ a : ℚ, 0 < a → (∀ t ∈ l, 0 < t) →
    0 < l.foldl max a := by
  induction l with
  | nil => intro a ha _; simpa using ha
  | cons b l ih =>
      intro a ha hl
      simp only [List.foldl_cons]
      exact ih (max a b) (lt_max_of_lt_left ha)
        (fun t ht => hl t (List.mem_cons_of_mem b ht))

/-- A left fold of `min` over positives starting from a positive is positive. -/
theorem foldl_min_pos (l : List ℚ) : ∀ a : ℚ, 0 < a → (∀ t ∈ l, 0 < t) →
    0 < l.foldl min a := by
  induction l with
  | nil => intro a ha _; simpa using ha
  | cons b l ih =>
      intro a ha hl
      simp only [List.foldl_cons]
      exact ih (min a b) (lt_min ha (hl b (List.mem_cons_self b l)))
        (fun t ht => hl t (List.mem_cons_of_mem b ht))

/-- Round-half-to-even of a nonnegative rational is nonnegative. -/
theorem roundHalfEven_nonneg (q : ℚ) (hq : 0 ≤ q) : 0 ≤ roundHalfEven q := by
  have h0 : (0 : ℤ) ≤ ⌊q⌋ := Int.floor_nonneg.mpr hq
  unfold roundHalfEven
  split
  · exact h0
  · split
    · omega
    · split <;> omega

/-- Python rounding of a nonnegative rational is nonnegative. -/
theorem pyRound_nonneg (q : ℚ) (nd : ℕ) (hq : 0 ≤ q) : 0 ≤ pyRound q nd := by
  unfold pyRound
  apply div_nonneg
  · exact_mod_cast roundHalfEven_nonneg _ (by positivity)
  · positivity

/-- MB-conversion of a nonnegative rational is nonnegative. -/
theorem convert_results_nonneg (r : ℚ) (nd : ℕ) (hr : 0 ≤ r) :
    0 ≤ convert_results r nd := by
  unfold convert_results
  exact pyRound_nonneg _ _ (by positivity)

/-- Concrete summary produced by `results` on the C6 counterexample input. -/
def c6Summary : ResultsSummary :=
  ⟨128, 100000, 0, 0, 0, 1, 512, 1, 128, 0, 0⟩

/-- Counterexample to claim C6: with both timing sequences non-empty (one
write sample of `100000` s, one read sample of `1` s, the default 128 MB
payload) the summary succeeds but `write_speed` — rounded to two decimals
by `convert_results` — is `0`, not strictly positive. -/
theorem results_zero_speed_cex :
    results 134217728 1048576 512 [100000] [1] = Except.ok c6Summary ∧
      ¬ 0 < c6Summary.write_speed ∧ ¬ 0 < c6Summary.write_speed_min ∧
      ¬ 0 < c6Summary.read_speed_max := by
  refine ⟨by with_unfolding_all rfl, ?_, ?_, ?_⟩ <;> decide

/-- Amended C6: with strictly positive samples, an empty timing sequence
makes `results` raise a division-by-zero error (never a silent infinity),
and with both sequences non-empty it succeeds with all throughput fields
nonnegative — rounding can take them all the way down to zero. -/
theorem results_nonneg_or_error (w wb rb : ℕ) (wres rres : List ℚ)
    (hw : ∀ t ∈ wres, 0 < t) (hr : ∀ t ∈ rres, 0 < t) :
    (wres = [] ∨ rres = [] →
      results w wb rb wres rres = Except.error RunError.divByZero) ∧
    (wres ≠ [] → rres ≠ [] → ∃ s, results w wb rb wres rres = Except.ok s ∧
      0 ≤ s.write_speed ∧ 0 ≤ s.write_speed_min ∧ 0 ≤ s.write_speed_max ∧
      0 ≤ s.read_speed ∧ 0 ≤ s.read_speed_max ∧ 0 ≤ s.read_speed_min) := by
  constructor
  · rintro (rfl | rfl)
    · simp [results]
    · rcases wres with _ | ⟨a, l⟩
      · simp [results]
      · have hsw : 0 < (a :: l).sum := List.sum_pos _ hw (List.cons_ne_nil a l)
        have hmx : 0 < l.foldl max a :=
          foldl_max_pos l a (hw a (List.mem_cons_self a l))
            (fun t ht => hw t (List.mem_cons_of_mem a ht))
        have hmn : 0 < l.foldl min a :=
          foldl_min_pos l a (hw a (List.mem_cons_self a l))
            (fun t ht => hw t (List.mem_cons_of_mem a ht))
        simp [results, listMax, listMin, hsw.ne', hmx.ne', hmn.ne']
  · intro hwne hrne
    rcases wres with _ | ⟨a, l⟩
    · exact absurd rfl hwne
    rcases rres with _ | ⟨b, m⟩
    · exact absurd rfl hrne
    have hsw : 0 < (a :: l).sum := List.sum_pos _ hw (List.cons_ne_nil a l)
    have hmx : 0 < l.foldl max a :=
      foldl_max_pos l a (hw a (List.mem_cons_self a l))
        (fun t ht => hw t (List.mem_cons_of_mem a ht))
    have hmn : 0 < l.foldl min a :=
      foldl_min_pos l a (hw a (List.mem_cons_self a l))
        (fun t ht => hw t (List.mem_cons_of_mem a ht))
    have hsr : 0 < (b :: m).sum := List.sum_pos _ hr (List.cons_ne_nil b m)
    have hrmx : 0 < m.foldl max b :=
      foldl_max_pos m b (hr b (List.mem_cons_self b m))
        (fun t ht => hr t (List.mem_cons_of_mem b ht))
    have hrmn : 0 < m.foldl min b :=
      foldl_min_pos m b (hr b (List.mem_cons_self b m))
        (fun t ht => hr t (List.mem_cons_of_mem b ht))
    refine ⟨⟨convert_results ((w : ℚ)) 0, pyRound (a :: l).sum 4,
      convert_results ((w : ℚ) / (a :: l).sum) 2,
      convert_results ((wb : ℚ) / l.foldl max a) 2,
      convert_results ((wb : ℚ) / l.foldl min a) 2,
      (b :: m).length, rb, pyRound (b :: m).sum 4,
      convert_results ((w : ℚ) / (b :: m).sum) 2,
      convert_results ((rb : ℚ) / m.foldl min b) 2,
      convert_results ((rb : ℚ) / m.foldl max b) 2⟩, ?_, ?_, ?_, ?_, ?_, ?_, ?_⟩
    · have hsw' : a + l.sum ≠ 0 := by simpa using hsw.ne'
      have hsr' : b + m.sum ≠ 0 := by simpa using hsr.ne'
      simp [results, listMax, listMin, hsw.ne', hmx.ne', hmn.ne', hsr.ne',
        hrmx.ne', hrmn.ne', hsw', hsr']
    · exact convert_results_nonneg _ _
        (div_nonneg (Nat.cast_nonneg w) hsw.le)
    · exact convert_results_nonneg _ _
        (div_nonneg (Nat.cast_nonneg wb) hmx.le)
    · exact convert_results_nonneg _ _
        (div_nonneg (Nat.cast_nonneg wb) hmn.le)
    · exact convert_results_nonneg _ _
        (div_nonneg (Nat.cast_nonneg w) hsr.le)
    · exact convert_results_nonneg _ _
        (div_nonneg (Nat.cast_nonneg rb) hrmn.le)
    · exact convert_results_nonneg _ _
        (div_nonneg (Nat.cast_nonneg rb) hrmx.le)

/-- Witness for amended C6 at the counterexample input. -/
theorem results_nonneg_or_error_witness :
    (([100000] : List ℚ) = [] ∨ ([1] : List ℚ) = [] →
      results 134217728 1048576 512 [100000] [1] = Except.error RunError.divByZero) ∧
    (([100000] : List ℚ) ≠ [] → ([1] : List ℚ) ≠ [] →
      ∃ s, results 134217728 1048576 512 [100000] [1] = Except.ok s ∧
        0 ≤ s.write_speed ∧ 0 ≤ s.write_speed_min ∧ 0 ≤ s.write_speed_max ∧
        0 ≤ s.read_speed ∧ 0 ≤ s.read_speed_max ∧ 0 ≤ s.read_speed_min) :=
  results_nonneg_or_error 134217728 1048576 512 [100000] [1]
    (by decide) (by decide)

/-- Claim C10: the `read_speed` field is computed from the total
configured payload size divided by the summed read timings; the number of
blocks actually read (`read_blocks`) and their size (`block_size`) do not
enter the formula. -/
theorem read_speed_uses_total_payload (w wb rb : ℕ) (wres rres : List ℚ)
    (s : ResultsSummary) (h : results w wb rb wres rres = Except.ok s) :
    s.read_speed = convert_results ((w : ℚ) / rres.sum) 2 ∧
      s.read_blocks = rres.length ∧ s.block_size = rb := by
  unfold results at h
  split at h
  · exact absurd h (by simp)
  · split at h
    · split at h
      · exact absurd h (by simp)
      · split at h
        · exact absurd h (by simp)
        · split at h
          · exact absurd h (by simp)
          · split at h
            · split at h
              · exact absurd h (by simp)
              · split at h
                · exact absurd h (by simp)
                · cases h
                  exact ⟨rfl, rfl, rfl⟩
            · exact absurd h (by simp)
    · exact absurd h (by simp)

/-- Concrete summary produced by `results` on the C10 witness input: two
read samples of half a block each were actually read (1 MB), but
`read_speed` is the full 2 MB payload over the 2 s read time. -/
def c10Summary : ResultsSummary :=
  ⟨2, 1, 2, 1, 1, 2, 524288, 2, 1, 1 / 2, 1 / 2⟩

/-- Witness for C10 at payload 2 MB, read block 512 KB, two read samples. -/
theorem read_speed_uses_total_payload_witness :
    c10Summary.read_speed = convert_results (((2097152 : ℕ) : ℚ) / ([1, 1] : List ℚ).sum) 2 ∧
      c10Summary.read_blocks = ([1, 1] : List ℚ).length ∧ c10Summary.block_size = 524288 :=
  read_speed_uses_total_payload 2097152 1048576 524288 [1] [1, 1] c10Summary
    (by with_unfolding_all rfl)

end MonkeyTest
